import Mathlib

/-!
# Shallow embedding of `PathDisplay` (ign-rviz, `PathDisplay.cpp`)

This file embeds the `ignition::rviz::plugins::PathDisplay` visualization
plugin as a Lean state-transition model and proves properties of its
operations.

Modelling conventions:

* `double`/`float` fields carried by messages and display configuration are
  modelled as `ℚ` (the claims never depend on rounding, only on which values
  are stored where).
* The fixed arrow orientation offset `math::Quaterniond(0, 1.57, 0)`
  (Euler angles, hence irrational components) is kept symbolic: a visual's
  stored rotation is a `RotVal`, whose constructor records whether the value
  is the identity, a message quaternion, or a message quaternion composed
  with the fixed offset.
* The external `FrameManager` is modelled as an association list from frame
  names to poses; `getFramePose` is lookup in that list, which can fail —
  exactly the failure the plugin's error path handles.
* The external node's `get_topic_names_and_types()` result is passed to
  `onRefresh` as an explicit argument (a list of `(name, types)` pairs).
* Qt signal emissions (`setCurrentIndex`) are modelled as returned values.
* Sequential state-transition semantics; the lock statements have no
  state effect here.  The locking *behaviour* itself (which statements hold
  the mutex) is modelled separately as event traces, see `LockEv` below.
-/

namespace PathDisplay

/-- A 3-vector with rational components (models `ignition::math::Vector3d`). -/
structure Vec3 where
  x : ℚ
  y : ℚ
  z : ℚ
deriving DecidableEq, Repr

def Vec3.zero : Vec3 := ⟨0, 0, 0⟩

def Vec3.add (a b : Vec3) : Vec3 := ⟨a.x + b.x, a.y + b.y, a.z + b.z⟩

/-- A quaternion value carried by a message or frame pose
(models `ignition::math::Quaterniond` as stored data). -/
structure Quat where
  w : ℚ
  x : ℚ
  y : ℚ
  z : ℚ
deriving DecidableEq, Repr

/-- Identity quaternion (the rotation of `math::Pose3d::Zero`). -/
def Quat.identity : Quat := ⟨1, 0, 0, 0⟩

/-- Rotation value stored on a visual.  The composition with the constant
`math::Quaterniond(0, 1.57, 0)` used for arrow visuals involves irrational
trigonometric components, so it is recorded symbolically. -/
inductive RotVal
  | ident : RotVal
  | ofQuat (q : Quat) : RotVal
  | quatTimesArrowOffset (q : Quat) : RotVal
deriving DecidableEq, Repr

/-- An RGBA color (models `ignition::math::Color`). -/
structure Color where
  r : ℚ
  g : ℚ
  b : ℚ
  a : ℚ
deriving DecidableEq, Repr

/-- One `geometry_msgs/PoseStamped` entry of a path message (only the fields
the plugin reads: position and orientation). -/
structure PoseMsg where
  px : ℚ
  py : ℚ
  pz : ℚ
  ow : ℚ
  ox : ℚ
  oy : ℚ
  oz : ℚ
deriving DecidableEq, Repr

/-- A `nav_msgs/msg/Path` message (the fields the plugin reads). -/
structure PathMsg where
  frame_id : String
  poses : List PoseMsg
deriving DecidableEq, Repr

/-- The `math::Pose3d localPose(...)` built in the update loop reads the
position fields of the i-th pose. -/
def posOfPose (p : PoseMsg) : Vec3 := ⟨p.px, p.py, p.pz⟩

/-- The orientation fields of the i-th pose, in `Pose3d(x,y,z,w,qx,qy,qz)`
constructor order. -/
def quatOfPose (p : PoseMsg) : Quat := ⟨p.ow, p.ox, p.oy, p.oz⟩

/-- State of one `rendering::AxisVisual` child of the root visual. -/
structure AxisVisual where
  localPos : Vec3
  localRot : RotVal
  visible : Bool
  headVisible : Bool
  childScale : Vec3
deriving DecidableEq, Repr

/-- State of one `rendering::ArrowVisual` child of the root visual. -/
structure ArrowVisual where
  localPos : Vec3
  localRot : RotVal
  visible : Bool
  material : Color
  shaftScale : Vec3
  origin : Vec3
  headScale : Vec3
deriving DecidableEq, Repr

/-- QoS profile settings managed by the base class setters. -/
structure QoSProfile where
  depth : Int
  history : Int
  reliability : Int
  durability : Int
deriving DecidableEq, Repr

/-- The plugin state: message buffer, visual children of the root visual,
the line-strip marker, display configuration and subscription bookkeeping.
`frames` models the external `FrameManager`, `errLog` the `RCLCPP_ERROR`
log. -/
structure State where
  msg : Option PathMsg
  axes : List AxisVisual
  arrows : List ArrowVisual
  markerPoints : List (Vec3 × Color)
  markerPresent : Bool
  createMarker : Bool
  rootPos : Vec3
  rootRot : Quat
  offset : Vec3
  visualShape : Int
  dirty : Bool
  shaftLength : ℚ
  shaftRadius : ℚ
  headLength : ℚ
  headRadius : ℚ
  axisLength : ℚ
  axisRadius : ℚ
  axisHeadVisible : Bool
  color : Color
  mat : Color
  topic_name : String
  topicList : List String
  subscriber : Option (String × QoSProfile)
  qos : QoSProfile
  frames : List (String × (Vec3 × Quat))
  errLog : List String
deriving DecidableEq, Repr

/-- The constructor `PathDisplay::PathDisplay()`: initializer list plus body.
The root visual starts with no geometry and default (zero) pose; the QoS
profile and initial topic name come from the base class, so they are
parameters. -/
def initState (q0 : QoSProfile) (topic0 : String) : State where
  msg := none
  axes := []
  arrows := []
  markerPoints := []
  markerPresent := false
  createMarker := true
  rootPos := Vec3.zero
  rootRot := Quat.identity
  offset := Vec3.zero
  visualShape := 0
  dirty := false
  shaftLength := 0.23
  shaftRadius := 0.01
  headLength := 0.07
  headRadius := 0.03
  axisLength := 0.3
  axisRadius := 0.03
  axisHeadVisible := false
  color := ⟨0.098, 1.0, 0.2, 1.0⟩
  mat := ⟨1.0, 0.098, 0.0, 1.0⟩
  topic_name := topic0
  topicList := []
  subscriber := none
  qos := q0
  frames := []
  errLog := []

/-- `PathDisplay::callback`: stores the received message, unconditionally
replacing the previous buffer contents. -/
def callback (s : State) (m : PathMsg) : State := { s with msg := some m }

/-- Folding a sequence of received messages through `callback`. -/
def runCallbacks (s : State) (ms : List PathMsg) : State := ms.foldl callback s

/-- Apply `f` to the element at index `i`, leaving the list unchanged when
`i` is out of range (models in-place mutation of `this->axes[i]` etc.). -/
def modifyAt : List α → Nat → (α → α) → List α
  | [], _, _ => []
  | a :: as, 0, f => f a :: as
  | a :: as, n + 1, f => a :: modifyAt as n f

/-- Apply `f i a` to each element `a` at index `i`, indices starting at `n`. -/
def mapIdxFrom (f : Nat → α → α) : Nat → List α → List α
  | _, [] => []
  | n, a :: as => f n a :: mapIdxFrom f (n + 1) as

/-- `PathDisplay::reset`: zero the local pose of the paired visuals (the
loop runs over `axes.size()` indices, touching `arrows[i]` only for those
indices) and drop the buffered message. -/
def reset (s : State) : State :=
  { s with
    arrows := mapIdxFrom
      (fun i a => if i < s.axes.length then
        { a with localPos := Vec3.zero, localRot := RotVal.ident } else a) 0 s.arrows,
    axes := mapIdxFrom
      (fun i a => if i < s.axes.length then
        { a with localPos := Vec3.zero, localRot := RotVal.ident } else a) 0 s.axes,
    msg := none }

/-- `PathDisplay::subscribe`: creates a subscription on the current topic
with the current QoS profile. -/
def subscribe (s : State) : State :=
  { s with subscriber := some (s.topic_name, s.qos) }

/-- Modelled from the spec: `MessageDisplay::unsubscribe` lives in the
plugin's base class, which is not part of this file; per the spec's pub/sub
interface it destroys the previous subscription. -/
def unsubscribe (s : State) : State := { s with subscriber := none }

/-- Modelled from the spec: base-class QoS setter (history depth). -/
def setHistoryDepth (s : State) (d : Int) : State :=
  { s with qos := { s.qos with depth := d } }

/-- Modelled from the spec: base-class QoS setter (history policy). -/
def setHistoryPolicy (s : State) (h : Int) : State :=
  { s with qos := { s.qos with history := h } }

/-- Modelled from the spec: base-class QoS setter (reliability policy). -/
def setReliabilityPolicy (s : State) (r : Int) : State :=
  { s with qos := { s.qos with reliability := r } }

/-- Modelled from the spec: base-class QoS setter (durability policy). -/
def setDurabilityPolicy (s : State) (d : Int) : State :=
  { s with qos := { s.qos with durability := d } }

/-- The topic type string the refresh loop matches against. -/
def pathType : String := "nav_msgs/msg/Path"

/-- The inner loop of `onRefresh` over one topic's type list: for each type
equal to `"nav_msgs/msg/Path"`, push the topic name, bump `index`, and set
`position` to the pre-bump `index` when the topic name equals the
configured one.  The accumulator mirrors the code's
`(topicList, index, position)` variables. -/
def refreshInner (tgt name : String) (acc : List String × Nat × Nat)
    (types : List String) : List String × Nat × Nat :=
  types.foldl
    (fun acc2 topicType =>
      if topicType = pathType then
        (acc2.1 ++ [name], acc2.2.1 + 1,
          if name = tgt then acc2.2.1 else acc2.2.2)
      else acc2)
    acc

/-- The outer loop of `onRefresh` over the reported `(topic, types)`
pairs. -/
def refreshOuter (tgt : String) (acc : List String × Nat × Nat)
    (topics : List (String × List String)) : List String × Nat × Nat :=
  topics.foldl (fun a topic => refreshInner tgt topic.1 a topic.2) acc

/-- `PathDisplay::onRefresh`: rebuild the topic list from the node's
`(topic, types)` report and emit the combo-box index (returned value,
modelling the `setCurrentIndex` signal). -/
def onRefresh (s : State) (topics : List (String × List String)) :
    State × Nat :=
  let res := refreshOuter s.topic_name (([] : List String), (0 : Nat), (0 : Nat)) topics
  ({ s with topicList := res.1 }, res.2.2)

/-- `PathDisplay::setTopic(const std::string &)`: store the topic name,
subscribe, then refresh the combo-box. -/
def setTopicStd (s : State) (t : String)
    (topics : List (String × List String)) : State × Nat :=
  onRefresh (subscribe { s with topic_name := t }) topics

/-- `PathDisplay::setTopic(const QString &)`: store the topic name,
unsubscribe, reset the visualization, and subscribe again. -/
def setTopicQ (s : State) (t : String) : State :=
  subscribe (reset (unsubscribe { s with topic_name := t }))

/-- `PathDisplay::updateQoS`: store the four QoS settings, then
resubscribe (unsubscribe, reset, subscribe). -/
def updateQoS (s : State) (d h r du : Int) : State :=
  subscribe (reset (unsubscribe
    (setDurabilityPolicy
      (setReliabilityPolicy (setHistoryPolicy (setHistoryDepth s d) h) r) du)))

/-- `PathDisplay::setShape`. -/
def setShape (s : State) (shape : Int) : State :=
  { s with visualShape := shape, dirty := true }

/-- `PathDisplay::setAxisHeadVisibility`. -/
def setAxisHeadVisibility (s : State) (v : Bool) : State :=
  { s with axisHeadVisible := v, dirty := true }

/-- `PathDisplay::setAxisDimensions`. -/
def setAxisDimensions (s : State) (len rad : ℚ) : State :=
  { s with axisLength := len, axisRadius := rad, dirty := true }

/-- `PathDisplay::setArrowDimensions`. -/
def setArrowDimensions (s : State) (sl sr hl hr : ℚ) : State :=
  { s with shaftLength := sl, shaftRadius := sr,
           headLength := hl, headRadius := hr, dirty := true }

/-- `PathDisplay::setColor`: update the shared arrow material and reapply
it to every arrow visual. -/
def setColor (s : State) (c : Color) : State :=
  { s with mat := c, arrows := s.arrows.map (fun a => { a with material := c }) }

/-- `PathDisplay::setLineColor`: store the line color and request marker
recreation (the only way to change the line's color). -/
def setLineColor (s : State) (c : Color) : State :=
  { s with color := c, createMarker := true }

/-- `PathDisplay::setOffset`. -/
def setOffset (s : State) (x y z : ℚ) : State :=
  { s with offset := ⟨x, y, z⟩ }

/-- `PathDisplay::setFrameManager`. -/
def setFrameManager (s : State) (f : List (String × (Vec3 × Quat))) : State :=
  { s with frames := f }

/-- `PathDisplay::updateVisual(int _index)`: apply the current arrow
dimensions to `arrows[_index]` and the current axis dimensions to the three
child arrows of `axes[_index]` (all three receive the same scale, recorded
once as `childScale`). -/
def updateVisual (s : State) (i : Nat) : State :=
  { s with
    arrows := modifyAt s.arrows i (fun a =>
      { a with
        shaftScale := ⟨s.shaftRadius * 2, s.shaftRadius * 2, s.shaftLength⟩,
        origin := ⟨0, 0, -s.shaftLength⟩,
        headScale := ⟨s.headRadius * 2, s.headRadius * 2, s.headLength * 2⟩ }),
    axes := modifyAt s.axes i (fun a =>
      { a with
        childScale := ⟨s.axisRadius * 20, s.axisRadius * 20, s.axisLength * 2⟩ }) }

/-- A freshly created `rendering::AxisVisual` pushed onto `axes`: created
with default pose and unit scale, then `SetVisible(false)`. -/
def newAxis : AxisVisual where
  localPos := Vec3.zero
  localRot := RotVal.ident
  visible := false
  headVisible := true
  childScale := ⟨1, 1, 1⟩

/-- A freshly created `rendering::ArrowVisual` pushed onto `arrows`:
default pose and unit scale, current material applied, then
`SetVisible(false)`. -/
def newArrow (s : State) : ArrowVisual where
  localPos := Vec3.zero
  localRot := RotVal.ident
  visible := false
  material := s.mat
  shaftScale := ⟨1, 1, 1⟩
  origin := Vec3.zero
  headScale := ⟨1, 1, 1⟩

/-- One iteration of the update loop at index `i` with pose `p`: create the
visual pair when `axes.size() == i` (then apply `updateVisual i`), add the
marker point, and set the i-th axis and arrow pose and visibility from the
message pose and the current shape setting. -/
def processPose (s : State) (i : Nat) (p : PoseMsg) : State :=
  let s1 : State :=
    if s.axes.length = i then
      updateVisual
        { s with axes := s.axes ++ [newAxis], arrows := s.arrows ++ [newArrow s] } i
    else s
  let lp := posOfPose p
  let lq := quatOfPose p
  let s2 : State := { s1 with markerPoints := s1.markerPoints ++ [(lp, s1.color)] }
  let s3 : State :=
    { s2 with
      axes := modifyAt s2.axes i (fun a =>
        { a with
          localPos := lp,
          localRot := RotVal.ofQuat lq,
          visible := s2.visualShape == 2,
          headVisible := (s2.visualShape == 2) && s2.axisHeadVisible }) }
  { s3 with
    arrows := modifyAt s3.arrows i (fun a =>
      { a with
        localPos := lp,
        localRot := RotVal.quatTimesArrowOffset lq,
        visible := s3.visualShape == 1 }) }

/-- The `for (int i = 0; ...)` loop of `update()` over the message poses,
starting at index `i`. -/
def updateLoop : State → Nat → List PoseMsg → State
  | s, _, [] => s
  | s, i, p :: ps => updateLoop (processPose s i p) (i + 1) ps

/-- The "hide unused visuals" loop: `for (i = msg->poses.size();
i < axes.size(); ++i)` sets `axes[i]` and `arrows[i]` invisible; `arrows[i]`
is touched only for indices below `axes.size()`. -/
def hideFrom (s : State) (n : Nat) : State :=
  { s with
    axes := mapIdxFrom
      (fun i a => if n ≤ i then { a with visible := false } else a) 0 s.axes,
    arrows := mapIdxFrom
      (fun i a => if n ≤ i ∧ i < s.axes.length then { a with visible := false } else a)
      0 s.arrows }

/-- The `if (dirty)` block: `updateVisual(i)` for every index. -/
def updateVisualAll (s : State) : State :=
  (List.range s.axes.length).foldl updateVisual s

/-- The `if (this->createMarker)` block of `update()`: drop the old marker
geometry and attach a fresh, empty line-strip marker. -/
def markerStep (s : State) : State :=
  if s.createMarker then
    { s with markerPoints := [], markerPresent := true, createMarker := false }
  else s

/-- The `if (dirty)` block closing `update()`: reapply the dimensions to
every visual and clear the dirty flag. -/
def dirtyStep (s : State) : State :=
  if s.dirty then { updateVisualAll s with dirty := false } else s

/-- The part of `update()` after a successful frame lookup: move the root
visual to the frame pose plus offset, clear the marker points, hide
surplus visuals, run the pose loop, and, if dirty, reapply the dimensions
to every visual. -/
def successBody (s : State) (m : PathMsg) (fp : Vec3 × Quat) : State :=
  dirtyStep
    (updateLoop
      (hideFrom
        { s with rootPos := Vec3.add fp.1 s.offset, rootRot := fp.2, markerPoints := [] }
        m.poses.length)
      0 m.poses)

/-- `PathDisplay::update()`: return if no message is buffered; recreate the
marker if requested; look up the frame pose (on failure log an error and
return); otherwise run the success path. -/
def update (s : State) : State :=
  match s.msg with
  | none => s
  | some m =>
    let s1 : State := markerStep s
    match List.lookup m.frame_id s1.frames with
    | none =>
      { s1 with errLog := s1.errLog ++ ["Unable to get frame pose: " ++ m.frame_id] }
    | some fp => successBody s1 m fp

/-- A Qt event, identified by its dynamic type id. -/
structure QtEvent where
  etype : Nat
deriving DecidableEq, Repr

/-- The dynamic event type id `ignition::gui::events::Render::kType`
(assigned by Qt at startup; its concrete value is irrelevant, only
equality with an event's type is ever tested). -/
def renderKType : Nat := 1001

/-- `PathDisplay::eventFilter`: run `update()` exactly on render events and
return the base-class `QObject::eventFilter` result (passed in as `base`),
so the event itself is never consumed by the plugin. -/
def eventFilter (s : State) (e : QtEvent) (base : Bool) : State × Bool :=
  let s1 : State := if e.etype = renderKType then update s else s
  (s1, base)

/-! ## Lock-trace model

Every method of `PathDisplay.cpp` guards itself with the statement
`std::lock_guard<std::mutex>(this->lock);`.  Because `this->lock` cannot be
a declarator-id, this statement constructs an *unnamed temporary* guard
that is destroyed — releasing the mutex — at the end of that same
statement, not at the end of the enclosing scope.  The traces below record,
per method, the sequence of mutex acquisitions/releases together with the
buffer accesses and scene mutations the method performs, in program
order. -/

/-- Events of the lock-trace model: mutex operations, accesses to the
message buffer `this->msg`, and scene mutations. -/
inductive LockEv
  | lock : LockEv
  | unlock : LockEv
  | writeMsg : LockEv
  | readMsg : LockEv
  | sceneMut : LockEv
deriving DecidableEq, Repr

/-- Trace of `callback`: the guard temporary locks and unlocks within its
own statement; the buffer write happens after it. -/
def callbackEvents : List LockEv := [.lock, .unlock, .writeMsg]

/-- Trace of a successful `update()` on a one-pose message with
`createMarker == false`: the guard temporary, the null check and frame_id
read of the buffer, the root-visual/marker mutations, the reads of
`msg->poses`, and the per-pose visual mutations. -/
def updateEvents : List LockEv :=
  [.lock, .unlock, .readMsg, .readMsg, .sceneMut, .sceneMut, .sceneMut,
   .readMsg, .readMsg, .sceneMut, .sceneMut, .sceneMut]

/-- Trace of `subscribe`: the guard temporary, then the subscription call. -/
def subscribeEvents : List LockEv := [.lock, .unlock]

/-- Modelled from the spec: `unsubscribe` is a base-class member not in
this file; the claim describes it as lock-taking, so its trace is a guard
acquisition and release. -/
def unsubscribeEvents : List LockEv := [.lock, .unlock]

/-- Trace of `onRefresh`: the guard temporary, then the topic-list
rebuild. -/
def onRefreshEvents : List LockEv := [.lock, .unlock]

/-- Trace of `setTopic(const std::string &)`: own guard, then `subscribe`
and `onRefresh`. -/
def setTopicStdEvents : List LockEv :=
  [.lock, .unlock] ++ subscribeEvents ++ onRefreshEvents

/-- Trace of `setTopic(const QString &)`: own guard, then `unsubscribe`,
`reset` (which takes no lock), and `subscribe`. -/
def setTopicQEvents : List LockEv :=
  [.lock, .unlock] ++ unsubscribeEvents ++ subscribeEvents

/-- Trace of `updateQoS`: own guard, the four base-class setters, then
`unsubscribe`, `reset` and `subscribe`. -/
def updateQoSEvents : List LockEv :=
  [.lock, .unlock] ++ unsubscribeEvents ++ subscribeEvents

/-- Non-recursive mutex semantics over a tagged trace (`true` tags the
subscriber thread, `false` the render thread): a `lock` while the mutex is
held does not proceed (the schedule is invalid — in the single-threaded
nested case, a self-deadlock), an `unlock` must be by the holder. -/
def validMutex : Option Bool → List (Bool × LockEv) → Bool
  | _, [] => true
  | held, (t, LockEv.lock) :: rest =>
    match held with
    | some _ => false
    | none => validMutex (some t) rest
  | held, (t, LockEv.unlock) :: rest =>
    match held with
    | some t' => t' == t && validMutex none rest
    | none => false
  | held, (_, _) :: rest => validMutex held rest

/-- The events of one thread in a tagged trace. -/
def projEvents (t : Bool) (tr : List (Bool × LockEv)) : List LockEv :=
  (tr.filter (fun p => p.1 == t)).map (fun p => p.2)

/-- Tag a single-threaded trace. -/
def tagAll (t : Bool) (es : List LockEv) : List (Bool × LockEv) :=
  es.map (fun e => (t, e))

/-- A concrete schedule interleaving one `callback` (thread `true`) into
the middle of one `update()` (thread `false`): the buffer write lands
after `update` has read the message's `frame_id` and before it reads the
poses and mutates the per-pose visuals. -/
def midUpdateSchedule : List (Bool × LockEv) :=
  tagAll false (updateEvents.take 7) ++ tagAll true callbackEvents ++
    tagAll false (updateEvents.drop 7)

/-! ## Derived notions used to state the claims -/

/-- The pose-and-visibility part of an axis visual's state (the fields the
update loop sets from the message; dimension scales excluded). -/
def axisView (a : AxisVisual) : Vec3 × RotVal × Bool × Bool :=
  (a.localPos, a.localRot, a.visible, a.headVisible)

/-- The pose-and-visibility part of an arrow visual's state. -/
def arrowView (a : ArrowVisual) : Vec3 × RotVal × Bool :=
  (a.localPos, a.localRot, a.visible)

/-- The "vector lengths stay in sync" invariant: one arrow handle and one
axis handle per rendered pose. -/
def lengthsInSync (s : State) : Prop := s.arrows.length = s.axes.length

/-- The names contributed by one reported topic: its name once per type
entry equal to `"nav_msgs/msg/Path"`. -/
def topicContrib (t : String × List String) : List String :=
  t.2.filterMap (fun ty => if ty = pathType then some t.1 else none)

/-- The topic list as the claim states it: the names of the reported
topics having type `"nav_msgs/msg/Path"`, one entry per matching
`(topic, type)` pair, in enumeration order. -/
def pathTopicList (topics : List (String × List String)) : List String :=
  (topics.map topicContrib).flatten

/-- The emitted combo-box index as the claim states it: the position of
the configured topic name in the list, or `0` when absent. -/
def specIndex (tgt : String) (l : List String) : Nat :=
  if tgt ∈ l then l.indexOf tgt else 0

/-! ## Concrete states for witnesses and counterexamples -/

/-- A default QoS profile used by concrete instances. -/
def someQoS : QoSProfile := ⟨10, 0, 0, 0⟩

/-- A concrete frame table holding one frame `"map"` at a nonzero pose. -/
def wFrames : List (String × (Vec3 × Quat)) :=
  [("map", (⟨1, 0, 0⟩, ⟨1, 0, 0, 0⟩))]

/-- A concrete one-pose path message on frame `"map"`. -/
def wMsg : PathMsg := ⟨"map", [⟨1, 2, 3, 1, 0, 0, 0⟩]⟩

/-- A concrete reachable state with the frame table installed and `wMsg`
buffered: `initState`, then `setFrameManager`, then one `callback`. -/
def wState : State :=
  callback (setFrameManager (initState someQoS "/path") wFrames) wMsg

/-- A concrete path message on a frame absent from `wFrames`. -/
def wBadMsg : PathMsg := ⟨"odom", [⟨4, 5, 6, 1, 0, 0, 0⟩]⟩

/-- A concrete state in which the frame lookup fails while a marker
rebuild is pending with old marker points present: reached from `wState`
by a successful `update`, then `setLineColor` (which sets `createMarker`),
then a `callback` delivering a message on an unknown frame. -/
def cexC1State : State :=
  callback (setLineColor (update wState) ⟨1, 0, 0, 1⟩) wBadMsg

/-- A concrete state whose buffered message is on a known frame, used to
show that a mutating `update` does not consume the buffer. -/
def cexC2State : State := wState

/-- A concrete topic report: two path topics and one non-path topic. -/
def wTopics : List (String × List String) :=
  [("/a", ["nav_msgs/msg/Odometry"]),
   ("/path", ["nav_msgs/msg/Path"]),
   ("/b", ["std_msgs/msg/String", "nav_msgs/msg/Path"])]

/-! ## List helper lemmas -/

theorem modifyAt_length (l : List α) (i : Nat) (f : α → α) :
    (modifyAt l i f).length = l.length := by
  induction l generalizing i with
  | nil => rfl
  | cons a as ih =>
    cases i with
    | zero => rfl
    | succ n => simpa [modifyAt] using ih n

theorem modifyAt_getElem_self (l : List α) (i : Nat) (f : α → α) :
    (modifyAt l i f)[i]? = (l[i]?).map f := by
  induction l generalizing i with
  | nil => simp [modifyAt]
  | cons a as ih =>
    cases i with
    | zero => simp [modifyAt]
    | succ n => simpa [modifyAt] using ih n

theorem modifyAt_getElem_ne (l : List α) {i j : Nat} (f : α → α) (h : j ≠ i) :
    (modifyAt l i f)[j]? = l[j]? := by
  induction l generalizing i j with
  | nil => simp [modifyAt]
  | cons a as ih =>
    cases i with
    | zero =>
      cases j with
      | zero => exact absurd rfl h
      | succ m => simp [modifyAt]
    | succ n =>
      cases j with
      | zero => simp [modifyAt]
      | succ m =>
        have : m ≠ n := fun hc => h (by simp [hc])
        simpa [modifyAt] using ih this

theorem mapIdxFrom_length (f : Nat → α → α) (n : Nat) (l : List α) :
    (mapIdxFrom f n l).length = l.length := by
  induction l generalizing n with
  | nil => rfl
  | cons a as ih => simpa [mapIdxFrom] using ih (n + 1)

theorem mapIdxFrom_getElem (f : Nat → α → α) (n j : Nat) (l : List α) :
    (mapIdxFrom f n l)[j]? = (l[j]?).map (f (n + j)) := by
  induction l generalizing n j with
  | nil => simp [mapIdxFrom]
  | cons a as ih =>
    cases j with
    | zero => simp [mapIdxFrom]
    | succ m =>
      have h := ih (n + 1) m
      have harith : n + 1 + m = n + (m + 1) := by omega
      simpa [mapIdxFrom, harith] using h

theorem append_singleton_getElem_ne (l : List α) (a : α) {j : Nat}
    (h : j ≠ l.length) : (l ++ [a])[j]? = l[j]? := by
  rcases Nat.lt_or_ge j l.length with hlt | hge
  · rw [List.getElem?_append]
    simp [hlt]
  · have h1 : l[j]? = none := by
      rw [List.getElem?_eq_none_iff]
      exact hge
    have h2 : (l ++ [a])[j]? = none := by
      rw [List.getElem?_eq_none_iff]
      simp only [List.length_append, List.length_singleton]
      omega
    rw [h1, h2]

theorem append_singleton_getElem_self (l : List α) (a : α) :
    (l ++ [a])[l.length]? = some a := by
  rw [List.getElem?_append_right (Nat.le_refl _)]
  simp

/-! ## Preservation lemmas for the update machinery -/

theorem updateVisual_axes_length (s : State) (i : Nat) :
    (updateVisual s i).axes.length = s.axes.length := by
  simp [updateVisual, modifyAt_length]

theorem updateVisual_arrows_length (s : State) (i : Nat) :
    (updateVisual s i).arrows.length = s.arrows.length := by
  simp [updateVisual, modifyAt_length]

theorem updateVisual_axisView (s : State) (i j : Nat) :
    ((updateVisual s i).axes[j]?).map axisView = (s.axes[j]?).map axisView := by
  by_cases h : j = i
  · subst h
    simp only [updateVisual, modifyAt_getElem_self]
    cases s.axes[j]? <;> simp [axisView]
  · simp [updateVisual, modifyAt_getElem_ne _ _ h]

theorem updateVisual_arrowView (s : State) (i j : Nat) :
    ((updateVisual s i).arrows[j]?).map arrowView = (s.arrows[j]?).map arrowView := by
  by_cases h : j = i
  · subst h
    simp only [updateVisual, modifyAt_getElem_self]
    cases s.arrows[j]? <;> simp [arrowView]
  · simp [updateVisual, modifyAt_getElem_ne _ _ h]

theorem updateVisualAll_axes_length (s : State) :
    (updateVisualAll s).axes.length = s.axes.length := by
  have h : ∀ (l : List Nat) (t : State), (l.foldl updateVisual t).axes.length = t.axes.length := by
    intro l
    induction l with
    | nil => intro t; rfl
    | cons a as ih =>
      intro t
      simpa [updateVisual_axes_length] using ih (updateVisual t a)
  exact h _ s

theorem updateVisualAll_arrows_length (s : State) :
    (updateVisualAll s).arrows.length = s.arrows.length := by
  have h : ∀ (l : List Nat) (t : State), (l.foldl updateVisual t).arrows.length = t.arrows.length := by
    intro l
    induction l with
    | nil => intro t; rfl
    | cons a as ih =>
      intro t
      simpa [updateVisual_arrows_length] using ih (updateVisual t a)
  exact h _ s

theorem updateVisualAll_axisView (s : State) (j : Nat) :
    ((updateVisualAll s).axes[j]?).map axisView = (s.axes[j]?).map axisView := by
  have h : ∀ (l : List Nat) (t : State),
      ((l.foldl updateVisual t).axes[j]?).map axisView = (t.axes[j]?).map axisView := by
    intro l
    induction l with
    | nil => intro t; rfl
    | cons a as ih =>
      intro t
      rw [List.foldl_cons, ih (updateVisual t a), updateVisual_axisView]
  exact h _ s

theorem updateVisualAll_arrowView (s : State) (j : Nat) :
    ((updateVisualAll s).arrows[j]?).map arrowView = (s.arrows[j]?).map arrowView := by
  have h : ∀ (l : List Nat) (t : State),
      ((l.foldl updateVisual t).arrows[j]?).map arrowView = (t.arrows[j]?).map arrowView := by
    intro l
    induction l with
    | nil => intro t; rfl
    | cons a as ih =>
      intro t
      rw [List.foldl_cons, ih (updateVisual t a), updateVisual_arrowView]
  exact h _ s

theorem updateVisualAll_msg (s : State) : (updateVisualAll s).msg = s.msg := by
  have h : ∀ (l : List Nat) (t : State), (l.foldl updateVisual t).msg = t.msg := by
    intro l
    induction l with
    | nil => intro t; rfl
    | cons a as ih =>
      intro t
      simpa [updateVisual] using ih (updateVisual t a)
  exact h _ s

theorem processPose_msg (s : State) (i : Nat) (p : PoseMsg) :
    (processPose s i p).msg = s.msg := by
  by_cases h : s.axes.length = i <;> simp [processPose, updateVisual, h]

theorem processPose_visualShape (s : State) (i : Nat) (p : PoseMsg) :
    (processPose s i p).visualShape = s.visualShape := by
  by_cases h : s.axes.length = i <;> simp [processPose, updateVisual, h]

theorem processPose_axisHeadVisible (s : State) (i : Nat) (p : PoseMsg) :
    (processPose s i p).axisHeadVisible = s.axisHeadVisible := by
  by_cases h : s.axes.length = i <;> simp [processPose, updateVisual, h]

theorem processPose_axes_length (s : State) (i : Nat) (p : PoseMsg) :
    (processPose s i p).axes.length =
      if s.axes.length = i then s.axes.length + 1 else s.axes.length := by
  by_cases h : s.axes.length = i <;> simp [processPose, updateVisual, modifyAt_length, h]

theorem processPose_arrows_length (s : State) (i : Nat) (p : PoseMsg) :
    (processPose s i p).arrows.length =
      if s.axes.length = i then s.arrows.length + 1 else s.arrows.length := by
  by_cases h : s.axes.length = i <;> simp [processPose, updateVisual, modifyAt_length, h]

theorem updateLoop_msg (s : State) (i : Nat) (ps : List PoseMsg) :
    (updateLoop s i ps).msg = s.msg := by
  induction ps generalizing s i with
  | nil => rfl
  | cons p ps ih => rw [updateLoop, ih, processPose_msg]

theorem processPose_inv (s : State) (i : Nat) (p : PoseMsg)
    (hinv : s.arrows.length = s.axes.length) :
    (processPose s i p).arrows.length = (processPose s i p).axes.length := by
  rw [processPose_axes_length, processPose_arrows_length, hinv]

theorem updateLoop_inv (s : State) (i : Nat) (ps : List PoseMsg)
    (hinv : s.arrows.length = s.axes.length) :
    (updateLoop s i ps).arrows.length = (updateLoop s i ps).axes.length := by
  induction ps generalizing s i with
  | nil => exact hinv
  | cons p ps ih => exact ih _ _ (processPose_inv s i p hinv)

theorem updateLoop_axes_length (s : State) (i : Nat) (ps : List PoseMsg)
    (h : i ≤ s.axes.length) :
    (updateLoop s i ps).axes.length = max s.axes.length (i + ps.length) := by
  induction ps generalizing s i with
  | nil =>
    simp only [updateLoop, List.length_nil, Nat.add_zero]
    omega
  | cons p ps ih =>
    rw [updateLoop]
    by_cases hc : s.axes.length = i
    · have h1 : (processPose s i p).axes.length = s.axes.length + 1 := by
        rw [processPose_axes_length, if_pos hc]
      have h2 := ih (processPose s i p) (i + 1) (by omega)
      rw [h2, h1]
      simp only [List.length_cons]
      omega
    · have h1 : (processPose s i p).axes.length = s.axes.length := by
        rw [processPose_axes_length, if_neg hc]
      have h2 := ih (processPose s i p) (i + 1) (by omega)
      rw [h2, h1]
      simp only [List.length_cons]
      omega

theorem processPose_axes_getElem_ne (s : State) (i : Nat) (p : PoseMsg)
    {j : Nat} (h : j ≠ i) :
    (processPose s i p).axes[j]? = s.axes[j]? := by
  by_cases hc : s.axes.length = i
  · have hne : j ≠ s.axes.length := fun hh => h (hh.trans hc)
    simp only [processPose, if_pos hc, updateVisual]
    simp only [modifyAt_getElem_ne _ _ h]
    exact append_singleton_getElem_ne _ _ hne
  · simp only [processPose, if_neg hc]
    simp only [modifyAt_getElem_ne _ _ h]

theorem processPose_arrows_getElem_ne (s : State) (i : Nat) (p : PoseMsg)
    (hinv : s.arrows.length = s.axes.length) {j : Nat} (h : j ≠ i) :
    (processPose s i p).arrows[j]? = s.arrows[j]? := by
  by_cases hc : s.axes.length = i
  · have hne : j ≠ s.arrows.length := fun hh => h (hh.trans (hinv.trans hc))
    simp only [processPose, if_pos hc, updateVisual]
    simp only [modifyAt_getElem_ne _ _ h]
    exact append_singleton_getElem_ne _ _ hne
  · simp only [processPose, if_neg hc]
    simp only [modifyAt_getElem_ne _ _ h]

theorem processPose_axes_getElem_self (s : State) (i : Nat) (p : PoseMsg)
    (h : i ≤ s.axes.length) :
    ((processPose s i p).axes[i]?).map axisView =
      some (posOfPose p, RotVal.ofQuat (quatOfPose p), s.visualShape == 2,
        (s.visualShape == 2) && s.axisHeadVisible) := by
  by_cases hc : s.axes.length = i
  · simp only [processPose, if_pos hc, updateVisual]
    simp only [modifyAt_getElem_self, Option.map_map]
    rw [← hc, append_singleton_getElem_self]
    simp [axisView, Function.comp]
  · have hlt : i < s.axes.length := Nat.lt_of_le_of_ne h (fun e => hc e.symm)
    simp only [processPose, if_neg hc]
    simp only [modifyAt_getElem_self, Option.map_map]
    rw [List.getElem?_eq_getElem hlt]
    simp [axisView, Function.comp]

theorem processPose_arrows_getElem_self (s : State) (i : Nat) (p : PoseMsg)
    (hinv : s.arrows.length = s.axes.length) (h : i ≤ s.axes.length) :
    ((processPose s i p).arrows[i]?).map arrowView =
      some (posOfPose p, RotVal.quatTimesArrowOffset (quatOfPose p),
        s.visualShape == 1) := by
  by_cases hc : s.axes.length = i
  · simp only [processPose, if_pos hc, updateVisual]
    simp only [modifyAt_getElem_self, Option.map_map]
    rw [show i = s.arrows.length from (hinv.trans hc).symm,
      append_singleton_getElem_self]
    simp [arrowView, Function.comp]
  · have hlt : i < s.arrows.length := by omega
    simp only [processPose, if_neg hc]
    simp only [modifyAt_getElem_self, Option.map_map]
    rw [List.getElem?_eq_getElem hlt]
    simp [arrowView, Function.comp]

theorem updateLoop_axes_getElem_outside (s : State) (i : Nat) (ps : List PoseMsg)
    {j : Nat} (h : j < i ∨ i + ps.length ≤ j) :
    (updateLoop s i ps).axes[j]? = s.axes[j]? := by
  induction ps generalizing s i with
  | nil => rfl
  | cons p ps ih =>
    have hne : j ≠ i := by
      rcases h with h | h
      · omega
      · simp only [List.length_cons] at h; omega
    rw [updateLoop, ih (processPose s i p) (i + 1)
        (by rcases h with h | h
            · exact Or.inl (by omega)
            · simp only [List.length_cons] at h; exact Or.inr (by omega)),
      processPose_axes_getElem_ne s i p hne]

theorem updateLoop_arrows_getElem_outside (s : State) (i : Nat) (ps : List PoseMsg)
    (hinv : s.arrows.length = s.axes.length) {j : Nat}
    (h : j < i ∨ i + ps.length ≤ j) :
    (updateLoop s i ps).arrows[j]? = s.arrows[j]? := by
  induction ps generalizing s i with
  | nil => rfl
  | cons p ps ih =>
    have hne : j ≠ i := by
      rcases h with h | h
      · omega
      · simp only [List.length_cons] at h; omega
    rw [updateLoop, ih (processPose s i p) (i + 1) (processPose_inv s i p hinv)
        (by rcases h with h | h
            · exact Or.inl (by omega)
            · simp only [List.length_cons] at h; exact Or.inr (by omega)),
      processPose_arrows_getElem_ne s i p hinv hne]

theorem updateLoop_view_inside (ps : List PoseMsg) (s : State) (i j : Nat)
    (p : PoseMsg) (hinv : s.arrows.length = s.axes.length)
    (hle : i ≤ s.axes.length) (hp : ps[j]? = some p) :
    ((updateLoop s i ps).axes[i + j]?).map axisView =
      some (posOfPose p, RotVal.ofQuat (quatOfPose p), s.visualShape == 2,
        (s.visualShape == 2) && s.axisHeadVisible) ∧
    ((updateLoop s i ps).arrows[i + j]?).map arrowView =
      some (posOfPose p, RotVal.quatTimesArrowOffset (quatOfPose p),
        s.visualShape == 1) := by
  induction ps generalizing s i j with
  | nil => simp at hp
  | cons q ps ih =>
    have hinv' := processPose_inv s i q hinv
    have hle' : i + 1 ≤ (processPose s i q).axes.length := by
      rw [processPose_axes_length]
      by_cases hc : s.axes.length = i
      · rw [if_pos hc]; omega
      · rw [if_neg hc]; omega
    cases j with
    | zero =>
      have hq : q = p := by
        simp only [List.getElem?_cons_zero, Option.some.injEq] at hp
        exact hp
      subst hq
      constructor
      · rw [Nat.add_zero, updateLoop,
          updateLoop_axes_getElem_outside _ (i + 1) ps (Or.inl (by omega)),
          processPose_axes_getElem_self s i q hle]
      · rw [Nat.add_zero, updateLoop,
          updateLoop_arrows_getElem_outside _ (i + 1) ps hinv' (Or.inl (by omega)),
          processPose_arrows_getElem_self s i q hinv hle]
    | succ m =>
      have hp' : ps[m]? = some p := by
        simpa using hp
      have harith : i + (m + 1) = (i + 1) + m := by omega
      have hres := ih (processPose s i q) (i + 1) m hinv' hle' hp'
      rw [processPose_visualShape, processPose_axisHeadVisible] at hres
      rw [updateLoop, harith]
      exact hres

theorem hideFrom_axes_length (s : State) (n : Nat) :
    (hideFrom s n).axes.length = s.axes.length := by
  simp [hideFrom, mapIdxFrom_length]

theorem hideFrom_arrows_length (s : State) (n : Nat) :
    (hideFrom s n).arrows.length = s.arrows.length := by
  simp [hideFrom, mapIdxFrom_length]

theorem hideFrom_axes_getElem (s : State) (n j : Nat) :
    (hideFrom s n).axes[j]? =
      (s.axes[j]?).map (fun a => if n ≤ j then { a with visible := false } else a) := by
  simp only [hideFrom, mapIdxFrom_getElem, Nat.zero_add]

theorem hideFrom_arrows_getElem (s : State) (n j : Nat) :
    (hideFrom s n).arrows[j]? =
      (s.arrows[j]?).map
        (fun a => if n ≤ j ∧ j < s.axes.length then { a with visible := false } else a) := by
  simp only [hideFrom, mapIdxFrom_getElem, Nat.zero_add]

theorem markerStep_axes (s : State) : (markerStep s).axes = s.axes := by
  by_cases h : s.createMarker <;> simp [markerStep, h]

theorem markerStep_arrows (s : State) : (markerStep s).arrows = s.arrows := by
  by_cases h : s.createMarker <;> simp [markerStep, h]

theorem markerStep_frames (s : State) : (markerStep s).frames = s.frames := by
  by_cases h : s.createMarker <;> simp [markerStep, h]

theorem markerStep_msg (s : State) : (markerStep s).msg = s.msg := by
  by_cases h : s.createMarker <;> simp [markerStep, h]

theorem markerStep_visualShape (s : State) : (markerStep s).visualShape = s.visualShape := by
  by_cases h : s.createMarker <;> simp [markerStep, h]

theorem markerStep_axisHeadVisible (s : State) :
    (markerStep s).axisHeadVisible = s.axisHeadVisible := by
  by_cases h : s.createMarker <;> simp [markerStep, h]

theorem markerStep_errLog (s : State) : (markerStep s).errLog = s.errLog := by
  by_cases h : s.createMarker <;> simp [markerStep, h]

theorem markerStep_rootPos (s : State) : (markerStep s).rootPos = s.rootPos := by
  by_cases h : s.createMarker <;> simp [markerStep, h]

theorem markerStep_rootRot (s : State) : (markerStep s).rootRot = s.rootRot := by
  by_cases h : s.createMarker <;> simp [markerStep, h]

theorem markerStep_markerPoints (s : State) :
    (markerStep s).markerPoints = if s.createMarker then [] else s.markerPoints := by
  by_cases h : s.createMarker <;> simp [markerStep, h]

theorem update_of_none (s : State) (h : s.msg = none) : update s = s := by
  simp [update, h]

theorem update_of_lookup_fail (s : State) (m : PathMsg) (hmsg : s.msg = some m)
    (hfr : List.lookup m.frame_id s.frames = none) :
    update s =
      { markerStep s with
        errLog := (markerStep s).errLog ++ ["Unable to get frame pose: " ++ m.frame_id] } := by
  have hfr1 : List.lookup m.frame_id (markerStep s).frames = none := by
    rw [markerStep_frames]; exact hfr
  simp only [update, hmsg, hfr1]

theorem update_of_lookup_success (s : State) (m : PathMsg) (fp : Vec3 × Quat)
    (hmsg : s.msg = some m)
    (hfr : List.lookup m.frame_id s.frames = some fp) :
    update s = successBody (markerStep s) m fp := by
  have hfr1 : List.lookup m.frame_id (markerStep s).frames = some fp := by
    rw [markerStep_frames]; exact hfr
  simp only [update, hmsg, hfr1]

theorem hideFrom_msg (s : State) (n : Nat) : (hideFrom s n).msg = s.msg := by
  simp [hideFrom]

theorem hideFrom_visualShape (s : State) (n : Nat) :
    (hideFrom s n).visualShape = s.visualShape := by
  simp [hideFrom]

theorem hideFrom_axisHeadVisible (s : State) (n : Nat) :
    (hideFrom s n).axisHeadVisible = s.axisHeadVisible := by
  simp [hideFrom]

theorem dirtyStep_axes_length (s : State) :
    (dirtyStep s).axes.length = s.axes.length := by
  by_cases h : s.dirty <;> simp [dirtyStep, h, updateVisualAll_axes_length]

theorem dirtyStep_arrows_length (s : State) :
    (dirtyStep s).arrows.length = s.arrows.length := by
  by_cases h : s.dirty <;> simp [dirtyStep, h, updateVisualAll_arrows_length]

theorem dirtyStep_axisView (s : State) (j : Nat) :
    ((dirtyStep s).axes[j]?).map axisView = (s.axes[j]?).map axisView := by
  by_cases h : s.dirty <;> simp [dirtyStep, h, updateVisualAll_axisView]

theorem dirtyStep_arrowView (s : State) (j : Nat) :
    ((dirtyStep s).arrows[j]?).map arrowView = (s.arrows[j]?).map arrowView := by
  by_cases h : s.dirty <;> simp [dirtyStep, h, updateVisualAll_arrowView]

theorem dirtyStep_msg (s : State) : (dirtyStep s).msg = s.msg := by
  by_cases h : s.dirty <;> simp [dirtyStep, h, updateVisualAll_msg]

theorem successBody_axes_length (t : State) (m : PathMsg) (fp : Vec3 × Quat) :
    (successBody t m fp).axes.length = max t.axes.length m.poses.length := by
  simp only [successBody, dirtyStep_axes_length]
  rw [updateLoop_axes_length _ _ _ (Nat.zero_le _)]
  simp [hideFrom_axes_length]

theorem successBody_arrows_length (t : State) (m : PathMsg) (fp : Vec3 × Quat)
    (hinv : t.arrows.length = t.axes.length) :
    (successBody t m fp).arrows.length = max t.arrows.length m.poses.length := by
  have h1 : (successBody t m fp).arrows.length = (successBody t m fp).axes.length := by
    simp only [successBody, dirtyStep_arrows_length, dirtyStep_axes_length]
    apply updateLoop_inv
    simp [hideFrom_axes_length, hideFrom_arrows_length, hinv]
  rw [h1, successBody_axes_length, hinv]

theorem successBody_msg (t : State) (m : PathMsg) (fp : Vec3 × Quat) :
    (successBody t m fp).msg = t.msg := by
  simp only [successBody, dirtyStep_msg, updateLoop_msg, hideFrom_msg]

theorem successBody_view_inside (t : State) (m : PathMsg) (fp : Vec3 × Quat)
    (hinv : t.arrows.length = t.axes.length) {j : Nat} {p : PoseMsg}
    (hp : m.poses[j]? = some p) :
    ((successBody t m fp).axes[j]?).map axisView =
      some (posOfPose p, RotVal.ofQuat (quatOfPose p), t.visualShape == 2,
        (t.visualShape == 2) && t.axisHeadVisible) ∧
    ((successBody t m fp).arrows[j]?).map arrowView =
      some (posOfPose p, RotVal.quatTimesArrowOffset (quatOfPose p),
        t.visualShape == 1) := by
  have hinv4 :
      (hideFrom
        { t with rootPos := Vec3.add fp.1 t.offset, rootRot := fp.2, markerPoints := [] }
        m.poses.length).arrows.length =
      (hideFrom
        { t with rootPos := Vec3.add fp.1 t.offset, rootRot := fp.2, markerPoints := [] }
        m.poses.length).axes.length := by
    simp [hideFrom_axes_length, hideFrom_arrows_length, hinv]
  have h := updateLoop_view_inside m.poses
    (hideFrom
      { t with rootPos := Vec3.add fp.1 t.offset, rootRot := fp.2, markerPoints := [] }
      m.poses.length)
    0 j p hinv4 (Nat.zero_le _) hp
  rw [Nat.zero_add, hideFrom_visualShape, hideFrom_axisHeadVisible] at h
  simpa only [successBody, dirtyStep_axisView, dirtyStep_arrowView] using h

theorem successBody_hidden (t : State) (m : PathMsg) (fp : Vec3 × Quat)
    (hinv : t.arrows.length = t.axes.length) {j : Nat}
    (hn : m.poses.length ≤ j) :
    ((successBody t m fp).axes[j]?).map axisView =
      (t.axes[j]?).map (fun a => (a.localPos, a.localRot, false, a.headVisible)) ∧
    ((successBody t m fp).arrows[j]?).map arrowView =
      (t.arrows[j]?).map (fun a => (a.localPos, a.localRot, false)) := by
  have hinv4 :
      (hideFrom
        { t with rootPos := Vec3.add fp.1 t.offset, rootRot := fp.2, markerPoints := [] }
        m.poses.length).arrows.length =
      (hideFrom
        { t with rootPos := Vec3.add fp.1 t.offset, rootRot := fp.2, markerPoints := [] }
        m.poses.length).axes.length := by
    simp [hideFrom_axes_length, hideFrom_arrows_length, hinv]
  constructor
  · rw [successBody, dirtyStep_axisView,
      updateLoop_axes_getElem_outside _ 0 m.poses (Or.inr (by omega)),
      hideFrom_axes_getElem]
    simp only [Option.map_map]
    cases ht : t.axes[j]? with
    | none => simp
    | some a => simp [axisView, Function.comp, hn]
  · rw [successBody, dirtyStep_arrowView,
      updateLoop_arrows_getElem_outside _ 0 m.poses hinv4 (Or.inr (by omega)),
      hideFrom_arrows_getElem]
    simp only [Option.map_map]
    by_cases hj : j < t.axes.length
    · cases ht : t.arrows[j]? with
      | none => simp
      | some a => simp [arrowView, Function.comp, hn, hj]
    · have hnone : t.arrows[j]? = none := by
        rw [List.getElem?_eq_none_iff]
        omega
      rw [hnone]
      simp

theorem successBody_inv (t : State) (m : PathMsg) (fp : Vec3 × Quat)
    (hinv : t.arrows.length = t.axes.length) :
    (successBody t m fp).arrows.length = (successBody t m fp).axes.length := by
  simp only [successBody, dirtyStep_arrows_length, dirtyStep_axes_length]
  apply updateLoop_inv
  simp [hideFrom_axes_length, hideFrom_arrows_length, hinv]

theorem update_inv (s : State) (hinv : s.arrows.length = s.axes.length) :
    (update s).arrows.length = (update s).axes.length := by
  cases hm : s.msg with
  | none => rw [update_of_none s hm]; exact hinv
  | some m =>
    cases hfr : List.lookup m.frame_id s.frames with
    | none =>
      rw [update_of_lookup_fail s m hm hfr]
      simpa [markerStep_axes, markerStep_arrows] using hinv
    | some fp =>
      rw [update_of_lookup_success s m fp hm hfr]
      apply successBody_inv
      rw [markerStep_axes, markerStep_arrows]
      exact hinv

/-! ## Claim theorems -/

/-- Claim C8: when no message is buffered (`this->msg` is empty),
`update()` returns immediately and performs no scene mutation at all: the
whole plugin state, marker and visuals included, is unchanged. -/
theorem C8_update_without_message_is_noop (s : State) (h : s.msg = none) :
    update s = s :=
  update_of_none s h

theorem C8_witness : update (initState someQoS "/path") = initState someQoS "/path" :=
  C8_update_without_message_is_noop (initState someQoS "/path") rfl

/-- Claim C2 (counterexample): an `update()` call that does perform scene
mutations (here it adds a marker point and creates a visual pair for the
buffered one-pose message) does not leave the buffer empty: the message is
still buffered afterwards. -/
theorem C2_counterexample :
    (update cexC2State).markerPoints ≠ cexC2State.markerPoints ∧
    (update cexC2State).axes.length = 1 ∧
    cexC2State.axes.length = 0 ∧
    (update cexC2State).msg = some wMsg := by decide

/-- Claim C2 (amended): `update()` reads the buffered message without
consuming it — after every `update()` call the buffer holds exactly what
it held before; the buffer is emptied only by `reset()` (reached through
`setTopic(QString)` and `updateQoS`). -/
theorem C2_update_does_not_consume_buffer (s : State) :
    (update s).msg = s.msg ∧ (reset s).msg = none := by
  constructor
  · cases hm : s.msg with
    | none => rw [update_of_none s hm, hm]
    | some m =>
      cases hfr : List.lookup m.frame_id s.frames with
      | none =>
        rw [update_of_lookup_fail s m hm hfr]
        simp [markerStep_msg, hm]
      | some fp =>
        rw [update_of_lookup_success s m fp hm hfr, successBody_msg, markerStep_msg]
        exact hm
  · simp [reset]

/-- Claim C6: the buffer holds at most one message, last-write-wins: each
callback unconditionally replaces the buffer, and after any nonempty
sequence of callbacks the buffer holds exactly the last received
message. -/
theorem C6_last_write_wins :
    (∀ (s : State) (m : PathMsg), (callback s m).msg = some m) ∧
    (∀ (s : State) (ms : List PathMsg) (m : PathMsg),
      (runCallbacks s (ms ++ [m])).msg = some m) := by
  constructor
  · intro s m; rfl
  · intro s ms m
    simp [runCallbacks, List.foldl_append, callback]

/-- Claim C7: `eventFilter` invokes `update()` exactly on events of the
render-event type, leaves the state alone on every other event, and always
returns the base-class `QObject::eventFilter` result, so the plugin never
consumes the event. -/
theorem C7_eventFilter_behaviour (s : State) (e : QtEvent) (b : Bool) :
    (e.etype = renderKType → eventFilter s e b = (update s, b)) ∧
    (e.etype ≠ renderKType → eventFilter s e b = (s, b)) ∧
    (eventFilter s e b).2 = b := by
  refine ⟨fun h => ?_, fun h => ?_, rfl⟩ <;> simp [eventFilter, h]

theorem C7_witness :
    eventFilter (initState someQoS "/path") ⟨1001⟩ true =
      (update (initState someQoS "/path"), true) ∧
    eventFilter (initState someQoS "/path") ⟨5⟩ false =
      (initState someQoS "/path", false) :=
  ⟨(C7_eventFilter_behaviour (initState someQoS "/path") ⟨1001⟩ true).1 rfl,
   (C7_eventFilter_behaviour (initState someQoS "/path") ⟨5⟩ false).2.1 (by decide)⟩

/-- Claim C1 (counterexample): when the frame lookup fails during
`update()` while a marker rebuild is pending (`createMarker` was set by
`setLineColor` after a successful update had filled the marker), the old
marker points are gone after the failed `update()` — scene state
observable through the plugin was modified by that call, contradicting the
claim that no scene state is modified. -/
theorem C1_counterexample :
    cexC1State.msg = some wBadMsg ∧
    List.lookup wBadMsg.frame_id cexC1State.frames = none ∧
    (update cexC1State).markerPoints ≠ cexC1State.markerPoints := by decide

/-- Claim C1 (amended): if the frame lookup fails during `update()`, an
error is logged and the rest of the update is skipped — root-visual pose,
all axis/arrow visuals and the buffered message are unmodified; however,
when a marker rebuild was pending (`createMarker` set, e.g. after
`setLineColor`), the marker geometry has already been recreated empty
before the lookup, so the marker points read as empty rather than
preserved. -/
theorem C1_lookup_failure_skips_update (s : State) (m : PathMsg)
    (hmsg : s.msg = some m)
    (hfr : List.lookup m.frame_id s.frames = none) :
    (update s).errLog = s.errLog ++ ["Unable to get frame pose: " ++ m.frame_id] ∧
    (update s).axes = s.axes ∧
    (update s).arrows = s.arrows ∧
    (update s).rootPos = s.rootPos ∧
    (update s).rootRot = s.rootRot ∧
    (update s).msg = s.msg ∧
    (update s).markerPoints = (if s.createMarker then [] else s.markerPoints) := by
  rw [update_of_lookup_fail s m hmsg hfr]
  refine ⟨?_, ?_, ?_, ?_, ?_, ?_, ?_⟩ <;>
    simp [markerStep_axes, markerStep_arrows, markerStep_rootPos, markerStep_rootRot,
      markerStep_msg, markerStep_errLog, markerStep_markerPoints]

theorem C1_witness :
    cexC1State.msg = some wBadMsg ∧
    (update cexC1State).errLog =
      cexC1State.errLog ++ ["Unable to get frame pose: " ++ wBadMsg.frame_id] :=
  ⟨rfl, (C1_lookup_failure_skips_update cexC1State wBadMsg rfl (by decide)).1⟩

/-- Claim C4: a successful `update()` on a buffered message with `N` poses
and prior visual count `M` leaves exactly `max M N` axis and `max M N`
arrow visuals (so the count never decreases); for each `i < N` the i-th
visuals' local pose is set from the i-th message pose (axis: position and
orientation; arrow: position, and orientation composed with the fixed
offset), and every visual at an index `≥ N` is hidden rather than
destroyed. -/
theorem C4_update_visual_reuse (s : State) (m : PathMsg) (fp : Vec3 × Quat)
    (hmsg : s.msg = some m)
    (hinv : s.arrows.length = s.axes.length)
    (hfr : List.lookup m.frame_id s.frames = some fp) :
    (update s).axes.length = max s.axes.length m.poses.length ∧
    (update s).arrows.length = max s.arrows.length m.poses.length ∧
    s.axes.length ≤ (update s).axes.length ∧
    (∀ (i : Nat) (p : PoseMsg), m.poses[i]? = some p →
      ((update s).axes[i]?).map axisView =
        some (posOfPose p, RotVal.ofQuat (quatOfPose p), s.visualShape == 2,
          (s.visualShape == 2) && s.axisHeadVisible) ∧
      ((update s).arrows[i]?).map arrowView =
        some (posOfPose p, RotVal.quatTimesArrowOffset (quatOfPose p),
          s.visualShape == 1)) ∧
    (∀ (i : Nat) (a : AxisVisual), m.poses.length ≤ i → (update s).axes[i]? = some a →
      a.visible = false) ∧
    (∀ (i : Nat) (a : ArrowVisual), m.poses.length ≤ i → (update s).arrows[i]? = some a →
      a.visible = false) := by
  rw [update_of_lookup_success s m fp hmsg hfr]
  have hinvT : (markerStep s).arrows.length = (markerStep s).axes.length := by
    rw [markerStep_axes, markerStep_arrows]; exact hinv
  have hlenA : (successBody (markerStep s) m fp).axes.length =
      max s.axes.length m.poses.length := by
    rw [successBody_axes_length, markerStep_axes]
  have hlenR : (successBody (markerStep s) m fp).arrows.length =
      max s.arrows.length m.poses.length := by
    rw [successBody_arrows_length _ _ _ hinvT, markerStep_arrows]
  refine ⟨hlenA, hlenR, ?_, ?_, ?_, ?_⟩
  · rw [hlenA]; exact Nat.le_max_left _ _
  · intro i p hp
    have h := successBody_view_inside (markerStep s) m fp hinvT hp
    rwa [markerStep_visualShape, markerStep_axisHeadVisible] at h
  · intro i a hi ha
    have h := (successBody_hidden (markerStep s) m fp hinvT hi).1
    rw [ha, markerStep_axes] at h
    cases ht : s.axes[i]? with
    | none => rw [ht] at h; simp at h
    | some b =>
      rw [ht] at h
      simp [axisView] at h
      exact h.2.2.1
  · intro i a hi ha
    have h := (successBody_hidden (markerStep s) m fp hinvT hi).2
    rw [ha, markerStep_arrows] at h
    cases ht : s.arrows[i]? with
    | none => rw [ht] at h; simp at h
    | some b =>
      rw [ht] at h
      simp [arrowView] at h
      exact h.2.2


theorem C4_witness :
    wState.msg = some wMsg ∧
    wState.arrows.length = wState.axes.length ∧
    List.lookup wMsg.frame_id wState.frames = some (⟨1, 0, 0⟩, ⟨1, 0, 0, 0⟩) ∧
    (update wState).axes.length = max wState.axes.length wMsg.poses.length :=
  ⟨rfl, rfl, by decide,
    (C4_update_visual_reuse wState wMsg (⟨1, 0, 0⟩, ⟨1, 0, 0, 0⟩) rfl rfl (by decide)).1⟩

/-- Claim C9: after a successful `update()`, for each pose index covered by
the message the arrow visual is visible exactly when the shape setting is
`1` and the axis visual exactly when it is `2`; in particular the two are
never both visible, and any other shape value leaves both hidden. -/
theorem C9_shape_selects_one_visual (s : State) (m : PathMsg) (fp : Vec3 × Quat)
    (hmsg : s.msg = some m)
    (hinv : s.arrows.length = s.axes.length)
    (hfr : List.lookup m.frame_id s.frames = some fp) :
    ∀ (i : Nat) (p : PoseMsg), m.poses[i]? = some p →
      ∃ (ax : AxisVisual) (ar : ArrowVisual),
        (update s).axes[i]? = some ax ∧ (update s).arrows[i]? = some ar ∧
        ax.visible = (s.visualShape == 2) ∧
        ar.visible = (s.visualShape == 1) ∧
        ¬(ax.visible = true ∧ ar.visible = true) := by
  rw [update_of_lookup_success s m fp hmsg hfr]
  have hinvT : (markerStep s).arrows.length = (markerStep s).axes.length := by
    rw [markerStep_axes, markerStep_arrows]; exact hinv
  intro i p hp
  have h := successBody_view_inside (markerStep s) m fp hinvT hp
  rw [markerStep_visualShape, markerStep_axisHeadVisible] at h
  obtain ⟨h1, h2⟩ := h
  cases hax : (successBody (markerStep s) m fp).axes[i]? with
  | none => rw [hax] at h1; simp at h1
  | some ax =>
    cases har : (successBody (markerStep s) m fp).arrows[i]? with
    | none => rw [har] at h2; simp at h2
    | some ar =>
      rw [hax] at h1
      rw [har] at h2
      simp [axisView, arrowView] at h1 h2
      refine ⟨ax, ar, rfl, rfl, h1.2.2.1, h2.2.2, ?_⟩
      rintro ⟨hva, hvr⟩
      rw [h1.2.2.1] at hva
      rw [h2.2.2] at hvr
      have e2 : s.visualShape = 2 := by simpa using hva
      have e1 : s.visualShape = 1 := by simpa using hvr
      omega

theorem C9_witness :
    wState.msg = some wMsg ∧
    (∃ (ax : AxisVisual) (ar : ArrowVisual), (update wState).axes[0]? = some ax ∧
      (update wState).arrows[0]? = some ar ∧
      ax.visible = (wState.visualShape == 2) ∧
      ar.visible = (wState.visualShape == 1) ∧
      ¬(ax.visible = true ∧ ar.visible = true)) :=
  ⟨rfl, C9_shape_selects_one_visual wState wMsg (⟨1, 0, 0⟩, ⟨1, 0, 0, 0⟩)
    rfl rfl (by decide) 0 ⟨1, 2, 3, 1, 0, 0, 0⟩ rfl⟩


theorem subscribe_arrows (s : State) : (subscribe s).arrows = s.arrows := rfl

theorem subscribe_axes (s : State) : (subscribe s).axes = s.axes := rfl

theorem unsubscribe_arrows (s : State) : (unsubscribe s).arrows = s.arrows := rfl

theorem unsubscribe_axes (s : State) : (unsubscribe s).axes = s.axes := rfl

theorem reset_arrows_length (s : State) : (reset s).arrows.length = s.arrows.length := by
  simp [reset, mapIdxFrom_length]

theorem reset_axes_length (s : State) : (reset s).axes.length = s.axes.length := by
  simp [reset, mapIdxFrom_length]

theorem setHistoryDepth_arrows (s : State) (d : Int) :
    (setHistoryDepth s d).arrows = s.arrows := rfl

theorem setHistoryDepth_axes (s : State) (d : Int) :
    (setHistoryDepth s d).axes = s.axes := rfl

theorem setHistoryPolicy_arrows (s : State) (d : Int) :
    (setHistoryPolicy s d).arrows = s.arrows := rfl

theorem setHistoryPolicy_axes (s : State) (d : Int) :
    (setHistoryPolicy s d).axes = s.axes := rfl

theorem setReliabilityPolicy_arrows (s : State) (d : Int) :
    (setReliabilityPolicy s d).arrows = s.arrows := rfl

theorem setReliabilityPolicy_axes (s : State) (d : Int) :
    (setReliabilityPolicy s d).axes = s.axes := rfl

theorem setDurabilityPolicy_arrows (s : State) (d : Int) :
    (setDurabilityPolicy s d).arrows = s.arrows := rfl

theorem setDurabilityPolicy_axes (s : State) (d : Int) :
    (setDurabilityPolicy s d).axes = s.axes := rfl

theorem reset_sync (s : State) (h : lengthsInSync s) : lengthsInSync (reset s) := by
  unfold lengthsInSync
  rw [reset_arrows_length, reset_axes_length]
  exact h

theorem setTopicQ_sync (s : State) (t : String) (h : lengthsInSync s) :
    lengthsInSync (setTopicQ s t) := by
  unfold lengthsInSync setTopicQ
  rw [subscribe_arrows, subscribe_axes, reset_arrows_length, reset_axes_length,
    unsubscribe_arrows, unsubscribe_axes]
  exact h

theorem updateQoS_sync (s : State) (d hh r du : Int) (h : lengthsInSync s) :
    lengthsInSync (updateQoS s d hh r du) := by
  unfold lengthsInSync updateQoS
  rw [subscribe_arrows, subscribe_axes, reset_arrows_length, reset_axes_length,
    unsubscribe_arrows, unsubscribe_axes, setDurabilityPolicy_arrows,
    setDurabilityPolicy_axes, setReliabilityPolicy_arrows, setReliabilityPolicy_axes,
    setHistoryPolicy_arrows, setHistoryPolicy_axes, setHistoryDepth_arrows,
    setHistoryDepth_axes]
  exact h

theorem onRefresh_sync (s : State) (topics : List (String × List String))
    (h : lengthsInSync s) : lengthsInSync (onRefresh s topics).1 := by
  unfold lengthsInSync onRefresh
  exact h

theorem setTopicStd_sync (s : State) (t : String)
    (topics : List (String × List String)) (h : lengthsInSync s) :
    lengthsInSync (setTopicStd s t topics).1 := by
  unfold setTopicStd
  apply onRefresh_sync
  unfold lengthsInSync
  rw [subscribe_arrows, subscribe_axes]
  exact h

theorem eventFilter_sync (s : State) (e : QtEvent) (b : Bool)
    (h : lengthsInSync s) : lengthsInSync (eventFilter s e b).1 := by
  by_cases he : e.etype = renderKType
  · simp only [eventFilter, if_pos he]
    exact update_inv s h
  · simp only [eventFilter, if_neg he]
    exact h

/-- Claim C5: the invariant `arrows.size() == axes.size()` holds in the
freshly constructed plugin and is preserved by every operation: callback,
update, reset, both `setTopic` overloads, `updateQoS`, every display
setter, `onRefresh`, subscription management and the event filter. -/
theorem C5_lengths_in_sync :
    (∀ q0 t0, lengthsInSync (initState q0 t0)) ∧
    (∀ s m, lengthsInSync s → lengthsInSync (callback s m)) ∧
    (∀ s, lengthsInSync s → lengthsInSync (update s)) ∧
    (∀ s, lengthsInSync s → lengthsInSync (reset s)) ∧
    (∀ s, lengthsInSync s → lengthsInSync (subscribe s)) ∧
    (∀ s, lengthsInSync s → lengthsInSync (unsubscribe s)) ∧
    (∀ s t topics, lengthsInSync s → lengthsInSync (setTopicStd s t topics).1) ∧
    (∀ s t, lengthsInSync s → lengthsInSync (setTopicQ s t)) ∧
    (∀ s d h r du, lengthsInSync s → lengthsInSync (updateQoS s d h r du)) ∧
    (∀ s sh, lengthsInSync s → lengthsInSync (setShape s sh)) ∧
    (∀ s v, lengthsInSync s → lengthsInSync (setAxisHeadVisibility s v)) ∧
    (∀ s a b, lengthsInSync s → lengthsInSync (setAxisDimensions s a b)) ∧
    (∀ s a b c d, lengthsInSync s → lengthsInSync (setArrowDimensions s a b c d)) ∧
    (∀ s c, lengthsInSync s → lengthsInSync (setColor s c)) ∧
    (∀ s c, lengthsInSync s → lengthsInSync (setLineColor s c)) ∧
    (∀ s x y z, lengthsInSync s → lengthsInSync (setOffset s x y z)) ∧
    (∀ s f, lengthsInSync s → lengthsInSync (setFrameManager s f)) ∧
    (∀ s topics, lengthsInSync s → lengthsInSync (onRefresh s topics).1) ∧
    (∀ s e b, lengthsInSync s → lengthsInSync (eventFilter s e b).1) := by
  refine ⟨fun q0 t0 => rfl, fun s m h => h, fun s h => update_inv s h,
    fun s h => reset_sync s h, fun s h => h, fun s h => h,
    fun s t topics h => setTopicStd_sync s t topics h,
    fun s t h => setTopicQ_sync s t h,
    fun s d hh r du h => updateQoS_sync s d hh r du h,
    fun s sh h => h, fun s v h => h, fun s a b h => h, fun s a b c d h => h,
    ?_, fun s c h => h, fun s x y z h => h, fun s f h => h,
    fun s topics h => onRefresh_sync s topics h,
    fun s e b h => eventFilter_sync s e b h⟩
  intro s c h
  unfold lengthsInSync setColor
  simp only [List.length_map]
  exact h

theorem C5_witness : lengthsInSync (update wState) :=
  C5_lengths_in_sync.2.2.1 wState
    (show wState.arrows.length = wState.axes.length by decide)

/-- Claim C3 (code-bug evidence): every `std::lock_guard<std::mutex>(this->lock);`
statement in the file constructs an unnamed temporary, so the mutex is
released at the end of that statement.  Consequently (a) every nested
lock-taking call chain (`setTopic` into `subscribe`/`onRefresh`,
`updateQoS` into `unsubscribe`/`subscribe`) is a valid single-threaded
schedule — it terminates, no self-deadlock — but (b) the mutex does NOT
serialize `callback` against `update`: the concrete schedule
`midUpdateSchedule` is valid under mutex semantics, splits `update`'s
trace, and lands the buffer write between `update`'s buffer reads and the
remaining scene mutations. -/
theorem C3_lock_temporaries :
    validMutex none midUpdateSchedule = true ∧
    projEvents true midUpdateSchedule = callbackEvents ∧
    projEvents false midUpdateSchedule = updateEvents ∧
    midUpdateSchedule[9]? = some (true, LockEv.writeMsg) ∧
    (midUpdateSchedule.take 9).contains (false, LockEv.readMsg) = true ∧
    (midUpdateSchedule.drop 10).contains (false, LockEv.readMsg) = true ∧
    (midUpdateSchedule.drop 10).contains (false, LockEv.sceneMut) = true ∧
    validMutex none (tagAll false setTopicStdEvents) = true ∧
    validMutex none (tagAll false setTopicQEvents) = true ∧
    validMutex none (tagAll false updateQoSEvents) = true ∧
    validMutex none (tagAll false updateEvents) = true ∧
    validMutex none (tagAll true callbackEvents) = true := by decide


/-! ## Lemmas for the topic-list refresh -/

theorem filterMap_if_eq_replicate (nm : String) (types : List String) :
    types.filterMap (fun ty => if ty = pathType then some nm else none) =
      List.replicate (types.count pathType) nm := by
  induction types with
  | nil => rfl
  | cons ty rest ih =>
    by_cases h : ty = pathType
    · subst h
      simp [List.count_cons, ih, List.replicate_succ]
    · simp [List.filterMap_cons, h, ih, List.count_cons,
        show (ty == pathType) = false by simpa using h]

theorem topicContrib_eq_replicate (t : String × List String) :
    topicContrib t = List.replicate (t.2.count pathType) t.1 :=
  filterMap_if_eq_replicate t.1 t.2

theorem pathTopicList_nil : pathTopicList [] = [] := rfl

theorem pathTopicList_cons (t : String × List String)
    (ts : List (String × List String)) :
    pathTopicList (t :: ts) = topicContrib t ++ pathTopicList ts := by
  simp [pathTopicList]

theorem refreshInner_no_match (tgt name : String) (acc : List String × Nat × Nat)
    (types : List String) (h : pathType ∉ types) :
    refreshInner tgt name acc types = acc := by
  induction types generalizing acc with
  | nil => rfl
  | cons ty rest ih =>
    have hne : ¬(ty = pathType) := fun e => h (e ▸ List.mem_cons_self ty rest)
    have hrest : pathType ∉ rest := fun hr => h (List.mem_cons_of_mem ty hr)
    simp only [refreshInner, List.foldl_cons, if_neg hne]
    exact ih acc hrest

theorem refreshInner_char (tgt name : String) (tl : List String) (idx pos : Nat)
    (types : List String) (h : types.count pathType ≤ 1) :
    refreshInner tgt name (tl, idx, pos) types =
      if pathType ∈ types then
        (tl ++ [name], idx + 1, if name = tgt then idx else pos)
      else (tl, idx, pos) := by
  induction types with
  | nil => simp [refreshInner]
  | cons ty rest ih =>
    by_cases hty : ty = pathType
    · subst hty
      have hc1 : (pathType :: rest).count pathType = rest.count pathType + 1 := by
        simp [List.count_cons]
      have hcnt : rest.count pathType = 0 := by omega
      have hnot : pathType ∉ rest := List.count_eq_zero.1 hcnt
      have hstep := refreshInner_no_match tgt name
        (tl ++ [name], idx + 1, if name = tgt then idx else pos) rest hnot
      simp only [refreshInner, List.foldl_cons] at hstep ⊢
      rw [if_pos trivial, hstep, if_pos (List.mem_cons_self pathType rest)]
    · have hmem : pathType ∈ ty :: rest ↔ pathType ∈ rest := by
        constructor
        · intro hm
          rcases List.mem_cons.1 hm with he | hm
          · exact absurd he.symm hty
          · exact hm
        · exact fun hm => List.mem_cons_of_mem ty hm
      have hcnt : rest.count pathType ≤ 1 := by
        have hc1 : (ty :: rest).count pathType = rest.count pathType := by
          simp [List.count_cons, show (ty == pathType) = false by simpa using hty]
        omega
      simp only [refreshInner, List.foldl_cons, if_neg hty]
      rw [show (List.foldl _ (tl, idx, pos) rest :
          List String × Nat × Nat) = refreshInner tgt name (tl, idx, pos) rest from rfl,
        ih hcnt]
      exact if_congr hmem.symm rfl rfl

theorem specIndex_append_eq (tgt : String) (tl : List String) (h : tgt ∉ tl) :
    specIndex tgt (tl ++ [tgt]) = tl.length := by
  have hmem : tgt ∈ tl ++ [tgt] := List.mem_append_right tl (List.mem_singleton.2 rfl)
  rw [specIndex, if_pos hmem, List.indexOf_append_of_not_mem h]
  simp [List.indexOf_cons]

theorem specIndex_append_ne (tgt name : String) (tl : List String) (h : name ≠ tgt) :
    specIndex tgt (tl ++ [name]) = specIndex tgt tl := by
  by_cases hm : tgt ∈ tl
  · rw [specIndex, specIndex, if_pos (List.mem_append_left _ hm), if_pos hm,
      List.indexOf_append_of_mem hm]
  · have hm2 : tgt ∉ tl ++ [name] := by
      intro hc
      rcases List.mem_append.1 hc with hc | hc
      · exact hm hc
      · exact h (List.mem_singleton.1 hc).symm
    rw [specIndex, specIndex, if_neg hm2, if_neg hm]


theorem refreshOuter_char (tgt : String) (topics : List (String × List String)) :
    ∀ (tl : List String) (pos : Nat),
      (tl ++ pathTopicList topics).count tgt ≤ 1 →
      (∀ t ∈ topics, t.2.count pathType ≤ 1) →
      pos = specIndex tgt tl →
      refreshOuter tgt (tl, tl.length, pos) topics =
        (tl ++ pathTopicList topics, (tl ++ pathTopicList topics).length,
          specIndex tgt (tl ++ pathTopicList topics)) := by
  induction topics with
  | nil =>
    intro tl pos hcnt htypes hpos
    simp [refreshOuter, pathTopicList_nil, hpos]
  | cons t rest ih =>
    intro tl pos hcnt htypes hpos
    have hct : t.2.count pathType ≤ 1 := htypes t (List.mem_cons_self t rest)
    have htypes2 : ∀ t2 ∈ rest, t2.2.count pathType ≤ 1 :=
      fun t2 ht2 => htypes t2 (List.mem_cons_of_mem t ht2)
    have hstep : refreshOuter tgt (tl, tl.length, pos) (t :: rest) =
        refreshOuter tgt (refreshInner tgt t.1 (tl, tl.length, pos) t.2) rest := rfl
    rw [hstep, refreshInner_char tgt t.1 tl tl.length pos t.2 hct]
    by_cases hmem : pathType ∈ t.2
    · rw [if_pos hmem]
      have hcnt1 : t.2.count pathType = 1 := by
        have h0 : 0 < t.2.count pathType := List.count_pos_iff.2 hmem
        omega
      have hcontrib : topicContrib t = [t.1] := by
        rw [topicContrib_eq_replicate, hcnt1]
        rfl
      have hptl : pathTopicList (t :: rest) = [t.1] ++ pathTopicList rest := by
        rw [pathTopicList_cons, hcontrib]
      have hassoc : (tl ++ [t.1]) ++ pathTopicList rest = tl ++ pathTopicList (t :: rest) := by
        rw [hptl, List.append_assoc]
      have hcnt2 : ((tl ++ [t.1]) ++ pathTopicList rest).count tgt ≤ 1 := by
        rw [hassoc]; exact hcnt
      have hlen1 : tl.length + 1 = (tl ++ [t.1]).length := by simp
      by_cases hn : t.1 = tgt
      · subst hn
        have hnotin : t.1 ∉ tl := by
          have hc : (tl ++ pathTopicList (t :: rest)).count t.1 ≤ 1 := hcnt
          rw [hptl, List.count_append, List.count_append] at hc
          have h1 : (([t.1] : List String).count t.1) = 1 := by simp
          have h0 : tl.count t.1 = 0 := by omega
          exact List.count_eq_zero.1 h0
        have hIH := ih (tl ++ [t.1]) tl.length hcnt2 htypes2
          (specIndex_append_eq t.1 tl hnotin).symm
        rw [if_pos rfl, hlen1, hIH, hassoc]
      · have hspec : specIndex tgt (tl ++ [t.1]) = specIndex tgt tl :=
          specIndex_append_ne tgt t.1 tl hn
        have hIH := ih (tl ++ [t.1]) pos hcnt2 htypes2 (hpos.trans hspec.symm)
        rw [if_neg hn, hlen1, hIH, hassoc]
    · rw [if_neg hmem]
      have hcontrib : topicContrib t = [] := by
        rw [topicContrib_eq_replicate, List.count_eq_zero.2 hmem]
        rfl
      have hptl : pathTopicList (t :: rest) = pathTopicList rest := by
        rw [pathTopicList_cons, hcontrib, List.nil_append]
      rw [hptl] at hcnt ⊢
      exact ih tl pos hcnt htypes2 hpos

theorem pathTopicList_count_zero (tgt : String) :
    ∀ (topics : List (String × List String)),
      tgt ∉ topics.map Prod.fst → (pathTopicList topics).count tgt = 0 := by
  intro topics
  induction topics with
  | nil => intro _; rfl
  | cons t rest ih =>
    intro h
    have hne : t.1 ≠ tgt := by
      intro e
      exact h (by rw [List.map_cons]; exact e ▸ List.mem_cons_self t.1 _)
    have hrest : tgt ∉ List.map Prod.fst rest := by
      intro hm
      exact h (by rw [List.map_cons]; exact List.mem_cons_of_mem _ hm)
    rw [pathTopicList_cons, List.count_append, ih hrest,
      topicContrib_eq_replicate, List.count_replicate]
    simp [show (t.1 == tgt) = false by simpa using hne]

theorem count_pathTopicList_le_one (tgt : String) :
    ∀ (topics : List (String × List String)),
      (topics.map Prod.fst).Nodup → (∀ t ∈ topics, t.2.Nodup) →
      (pathTopicList topics).count tgt ≤ 1 := by
  intro topics
  induction topics with
  | nil => intro _ _; simp [pathTopicList_nil]
  | cons t rest ih =>
    intro hnames htypes
    rw [List.map_cons] at hnames
    obtain ⟨hhead, htail⟩ := List.nodup_cons.1 hnames
    have hrest := ih htail (fun t2 ht2 => htypes t2 (List.mem_cons_of_mem t ht2))
    rw [pathTopicList_cons, List.count_append, topicContrib_eq_replicate,
      List.count_replicate]
    by_cases hn : t.1 = tgt
    · subst hn
      have hz : (pathTopicList rest).count t.1 = 0 := pathTopicList_count_zero t.1 rest hhead
      have hc : t.2.count pathType ≤ 1 :=
        List.nodup_iff_count_le_one.1 (htypes t (List.mem_cons_self t rest)) pathType
      rw [hz]
      simpa using hc
    · simp [show (t.1 == tgt) = false by simpa using hn]
      exact hrest

/-- Claim C10: after `onRefresh()`, the topic list holds exactly the
reported topic names of type `"nav_msgs/msg/Path"`, one entry per matching
`(topic, type)` pair in enumeration order, and the emitted combo-box index
is the position of the configured topic name in that list, or `0` when the
configured topic is absent.  The hypotheses record what the node's
topics-and-types report guarantees: topic names are unique and each
topic's type list has no duplicates. -/
theorem C10_onRefresh_topics (s : State) (topics : List (String × List String))
    (hnames : (topics.map Prod.fst).Nodup)
    (htypes : ∀ t ∈ topics, t.2.Nodup) :
    (onRefresh s topics).1.topicList = pathTopicList topics ∧
    (onRefresh s topics).2 = specIndex s.topic_name (pathTopicList topics) := by
  have hcnt : (pathTopicList topics).count s.topic_name ≤ 1 :=
    count_pathTopicList_le_one s.topic_name topics hnames htypes
  have hct : ∀ t ∈ topics, t.2.count pathType ≤ 1 :=
    fun t ht => List.nodup_iff_count_le_one.1 (htypes t ht) pathType
  have hchar := refreshOuter_char s.topic_name topics [] 0
    (by simpa using hcnt) hct (by simp [specIndex])
  simp only [List.length_nil, List.nil_append] at hchar
  simp only [onRefresh, hchar]
  exact ⟨trivial, trivial⟩

theorem C10_witness :
    (wTopics.map Prod.fst).Nodup ∧
    (onRefresh wState wTopics).1.topicList = pathTopicList wTopics ∧
    (onRefresh wState wTopics).2 = specIndex wState.topic_name (pathTopicList wTopics) :=
  ⟨by decide,
   (C10_onRefresh_topics wState wTopics (by decide) (by decide)).1,
   (C10_onRefresh_topics wState wTopics (by decide) (by decide)).2⟩

end PathDisplay
